import Mathlib

set_option maxHeartbeats 1000000

namespace BxUtils

/-! Shallow embedding of the two components of the repository that the
verified properties talk about: the query-assertion recorder
(bx_py_utils.test_utils.assert_queries, exercised by
src/bx_py_utils_tests/tests/test_assert_queries.py) and the
create-or-update reconciler together with the translation field helpers
(bx_django_utils.models.manipulate and bx_django_utils.translation,
exercised by src/bx_django_utils_tests/tests/test_translation.py).
The implementation modules themselves are not part of the sources, only
their test suites are, so the definitions below are modelled from the
specification, with every behaviour that the in-repository tests pin
down reproduced exactly. -/

/-- Modelled from the spec: one recorded statement of the query-assertion
recorder (data model entry CapturedQuery): raw SQL text, bound parameter
values, and the derived table names referenced by the statement.  The
implementation module is missing from the sources; behaviour is taken from
the spec and from the assertions of test_assert_queries.py. -/
structure CapturedQuery where
  sql : String
  params : List String
  tables : List String
deriving DecidableEq

/-- Association-list lookup, modelling Python dict access. -/
def alookup {β : Type} (k : String) : List (String × β) → Option β
  | [] => none
  | p :: rest => if p.1 = k then some p.2 else alookup k rest

/-- Occurrence count of a string in a list (multiset view). -/
def occCount (t : String) : List String → Nat
  | [] => 0
  | x :: rest => (if x = t then 1 else 0) + occCount t rest

/-- Concatenation of a list of strings. -/
def concatAll : List String → String
  | [] => ""
  | s :: rest => s ++ concatAll rest

/-- Comma separated rendering of a list of strings. -/
def commaSep : List String → String
  | [] => ""
  | [x] => x
  | x :: rest => x ++ ", " ++ commaSep rest

/-- The string pat occurs as a contiguous substring of s. -/
def containsSub (s pat : String) : Prop :=
  ∃ a b : String, s = a ++ (pat ++ b)

/-- One line of the transcript of captured statements: the index, a dot, and
the raw SQL text. -/
def transcriptLine (i : Nat) (q : CapturedQuery) : String :=
  Nat.repr i ++ ". " ++ q.sql ++ "\n"

/-- Modelled from the spec: the line-numbered transcript of the captured
statements, tagged with a monotonically increasing index starting at k. -/
def transcriptFrom (k : Nat) : List CapturedQuery → String
  | [] => ""
  | q :: rest => transcriptLine k q ++ transcriptFrom (k + 1) rest

/-- Modelled from the spec: every assertion failure message includes a
line-numbered transcript of every captured statement, indices starting at 1. -/
def buildErrorMessage (msg : String) (qs : List CapturedQuery) : String :=
  msg ++ ("\nCaptured queries were:\n" ++ transcriptFrom 1 qs)

/-- Modelled from the spec: flattened table multiset, the union with
multiplicity of all tables referenced across all statements. -/
def tableOccurrences (qs : List CapturedQuery) : List String :=
  (qs.map (fun q => q.tables)).flatten

/-- Modelled from the spec: assert_query_count, total statement count must
equal the expected number; the failure message is pinned by
test_assert_query_count. -/
def assert_query_count (qs : List CapturedQuery) (num : Nat) : Except String Unit :=
  if qs.length = num then Except.ok ()
  else
    Except.error (buildErrorMessage
      (Nat.repr qs.length ++ " queries executed, " ++ Nat.repr num ++ " expected.") qs)

/-- Counter increment: modelled from Python collections.Counter, an
association list from key to occurrence count. -/
def counterAdd : List (String × Nat) → String → List (String × Nat)
  | [], t => [(t, 1)]
  | (k, n) :: rest, t => if k = t then (k, n + 1) :: rest else (k, n) :: counterAdd rest t

/-- Build the occurrence counter of a list of strings, modelling
collections.Counter applied to the flattened table list. -/
def mkCounter (l : List String) : List (String × Nat) :=
  l.foldl counterAdd []

/-- Count stored under a key of a counter; zero for an absent key. -/
def counterLookup : List (String × Nat) → String → Nat
  | [], _ => 0
  | (k, n) :: rest, t => if k = t then n else counterLookup rest t

/-- Dict-style equality of two counters: every entry of either side agrees
with the lookup on the other side (zero counts and absent keys coincide). -/
def counterEq (a b : List (String × Nat)) : Bool :=
  a.all (fun p => counterLookup b p.1 = p.2) && b.all (fun p => counterLookup a p.1 = p.2)

/-- Render each counter entry as a line prefixed with pre, as in the
messages pinned by test_assert_table_counts. -/
def counterLines (pre : String) (c : List (String × Nat)) : String :=
  concatAll (c.map (fun p => pre ++ p.1 ++ ": " ++ Nat.repr p.2 ++ "\n"))

/-- Modelled from the spec: assert_table_counts, the per-table occurrence
multiset must equal the expected counter exactly; on mismatch the message
lists the expected entries as minus lines and the actual entries as plus
lines, as pinned by test_assert_table_counts. -/
def assert_table_counts (qs : List CapturedQuery) (expected : List (String × Nat)) :
    Except String Unit :=
  if counterEq expected (mkCounter (tableOccurrences qs)) then Except.ok ()
  else
    Except.error (buildErrorMessage
      ("Table count error:\n" ++ counterLines ("-") expected
        ++ counterLines ("+") (mkCounter (tableOccurrences qs))) qs)

/-- Render each table-name entry as a line prefixed with pre. -/
def nameLines (pre : String) (l : List String) : String :=
  concatAll (l.map (fun t => pre ++ t ++ "\n"))

/-- Modelled from the spec: assert_table_names, the set of distinct table
names across all statements must equal the expected set; the symmetric
difference is reported as removed and added lines, as pinned by
test_assert_table_names. -/
def assert_table_names (qs : List CapturedQuery) (expected : List String) :
    Except String Unit :=
  if expected.all (fun t => t ∈ (tableOccurrences qs).dedup)
      && ((tableOccurrences qs).dedup).all (fun t => t ∈ expected) then
    Except.ok ()
  else
    Except.error (buildErrorMessage
      ("Table names does not match:\n"
        ++ nameLines ("-") (expected.filter (fun t => t ∉ (tableOccurrences qs).dedup))
        ++ nameLines ("+") (((tableOccurrences qs).dedup).filter (fun t => t ∉ expected))) qs)

/-- Number of captured statements whose table set references table t. -/
def statementsReferencing (qs : List CapturedQuery) (t : String) : Nat :=
  (qs.filter (fun q => t ∈ q.tables)).length

/-- Modelled from the spec: the tables referenced by more than one distinct
captured statement, irrespective of duplicate or similar status. -/
def doubledTables (qs : List CapturedQuery) : List String :=
  (tableOccurrences qs).dedup.filter (fun t => 2 ≤ statementsReferencing qs t)

/-- Python set-literal rendering of a list of table names, as it appears in
the message pinned by test_assert_not_double_tables. -/
def pySet (l : List String) : String :=
  "\x7b" ++ commaSep (l.map (fun t => "\x27" ++ t ++ "\x27")) ++ "\x7d"

/-- Modelled from the spec: assert_not_double_tables, no table may be
referenced by more than one statement; a violation lists the offending
table set, as pinned by test_assert_not_double_tables. -/
def assert_not_double_tables (qs : List CapturedQuery) : Except String Unit :=
  if doubledTables qs = [] then Except.ok ()
  else
    Except.error (buildErrorMessage
      ("These tables was double used:\n" ++ pySet (doubledTables qs)) qs)

/-- Number of repeated occurrences in a list: each element that already
occurs later in the list contributes one, so the total is the sum over the
grouped values of (occurrences minus one), the count a Counter-based
grouping reports. -/
def extraCount {α : Type} [DecidableEq α] : List α → Nat
  | [] => 0
  | x :: rest => (if x ∈ rest then 1 else 0) + extraCount rest

/-- Modelled from the spec: number of duplicated statements, grouping by
SQL text and bound parameters together. -/
def duplicatedCount (qs : List CapturedQuery) : Nat :=
  extraCount (qs.map (fun q => (q.sql, q.params)))

/-- Modelled from the spec: number of similar statements, grouping by the
normalized statement text alone; test_assert_duplicated_queries pins that
two byte-identical statements count here as well. -/
def similarCount (qs : List CapturedQuery) : Nat :=
  extraCount (qs.map (fun q => q.sql))

/-- Failure message of assert_duplicated_queries, combining the counts of
each violated kind into one message, as pinned by
test_assert_duplicated_queries. -/
def duplicatedMsg (d s : Nat) (dupBad simBad : Bool) : String :=
  if dupBad && simBad then
    "There are " ++ Nat.repr d ++ " duplicated and " ++ Nat.repr s ++ " similar queries."
  else if dupBad then
    "There are " ++ Nat.repr d ++ " duplicated queries."
  else
    "There are " ++ Nat.repr s ++ " similar queries."

/-- Modelled from the spec: assert_duplicated_queries; when duplicated is
true there must be no duplicated statements, when similar is true there
must be no similar statements, each kind computed by grouping as above. -/
def assert_duplicated_queries (qs : List CapturedQuery) (duplicated similar : Bool) :
    Except String Unit :=
  if (duplicated && decide (duplicatedCount qs ≠ 0))
      || (similar && decide (similarCount qs ≠ 0)) then
    Except.error (buildErrorMessage
      (duplicatedMsg (duplicatedCount qs) (similarCount qs)
        (duplicated && decide (duplicatedCount qs ≠ 0))
        (similar && decide (similarCount qs ≠ 0))) qs)
  else Except.ok ()

/-- Stated from the claim wording, for comparison with the behaviour of the
code: the captured sequence holds a group of statements with identical SQL
text but differing bound parameters. -/
def hasSimilarNotIdentical (qs : List CapturedQuery) : Bool :=
  qs.enum.any (fun i =>
    qs.enum.any (fun j =>
      decide (i.1 ≠ j.1) && decide (i.2.sql = j.2.sql) && decide (i.2.params ≠ j.2.params)))

/-- Modelled from the spec: a field value handled by the reconciler.  The
claims only need string values and language-translation mappings; a mapping
carries a flag telling whether it is the FieldTranslation wrapper type or a
plain mapping, since reconciler updates move between the two. -/
inductive Value : Type where
  | str : String → Value
  | mapping : Bool → List (String × String) → Value
deriving DecidableEq

/-- Modelled from the spec: structural content equality of two mappings,
ignoring entry order; FieldTranslation equality is structural by underlying
mapping contents, so a wrapped and a plain mapping with the same entries
compare equal. -/
def contentEq (m1 m2 : List (String × String)) : Bool :=
  (m1.map Prod.fst ++ m2.map Prod.fst).all (fun k => alookup k m1 == alookup k m2)

/-- Modelled from the spec: the equality semantics under which the
reconciler compares a merge result with the stored value.  Mappings compare
by contents regardless of the wrapper flag. -/
def valueEq : Value → Value → Bool
  | Value.str a, Value.str b => a == b
  | Value.mapping _ a, Value.mapping _ b => contentEq a b
  | _, _ => false

/-- Modelled from the spec: a persisted record of the record store, a
primary key plus a mapping from field name to stored value. -/
structure DbRecord where
  pk : Nat
  fields : List (String × Value)
deriving DecidableEq

/-- Modelled from the spec: FieldUpdate, the immutable record of a single
field change with the prior stored value (none for a newly created record)
and the value after merge or assignment. -/
structure FieldUpdate where
  field_name : String
  old_value : Option Value
  new_value : Value
deriving DecidableEq

/-- Modelled from the spec: the outcome of one create_or_update2 call, as
read by test_translation.py: the resulting record, the created flag, the
ordered changed-field names and the matching FieldUpdate entries. -/
structure CreateOrUpdateResult where
  instance_ : DbRecord
  created : Bool
  updated_fields : List String
  update_info : List FieldUpdate
deriving DecidableEq

/-- Current stored value of a field of a record. -/
def getField (r : DbRecord) (name : String) : Value :=
  (alookup name r.fields).getD (Value.str "")

/-- Store a value under a field name of a record. -/
def setField (r : DbRecord) (name : String) (v : Value) : DbRecord :=
  { r with fields := r.fields.map (fun p => if p.1 = name then (p.1, v) else p) }

/-- Modelled from the spec: for each supplied field the merge result is
computed by the callback from the current stored value, fields whose merge
result equals the stored value under the field equality semantics are
skipped, and one FieldUpdate per remaining field is staged. -/
def computeUpdates (r : DbRecord) (fieldValues : List (String × Value))
    (cb : String → Value → Value → Value) : List FieldUpdate :=
  fieldValues.filterMap (fun p =>
    let old := getField r p.1
    let merged := cb p.1 old p.2
    if valueEq merged old then none
    else some { field_name := p.1, old_value := some old, new_value := merged })

/-- Apply the staged FieldUpdate list to a record, the single save of the
reconciler. -/
def applyAll (r : DbRecord) (ups : List FieldUpdate) : DbRecord :=
  ups.foldl (fun acc u => setField acc u.field_name u.new_value) r

/-- Fresh primary key for a newly created record. -/
def freshPk (store : List DbRecord) : Nat :=
  store.foldl (fun m r => max m r.pk) 0 + 1

/-- Modelled from the spec: create_or_update2, the create-or-update
reconciler.  The store is the record list, the lookup predicate is a
boolean predicate on records, and the callback is the per-field merge
strategy (identity-on-new when the caller passes none in Python).  The
returned triple carries the reconcile result, the resulting store, and
whether a persistence write was issued; more than one lookup match aborts
with MultipleRecordsError and no write. -/
def create_or_update2 (store : List DbRecord) (lookup : DbRecord → Bool)
    (fieldValues : List (String × Value)) (cb : String → Value → Value → Value) :
    Except String (CreateOrUpdateResult × List DbRecord × Bool) :=
  match store.filter lookup with
  | [] =>
      Except.ok
        ({ instance_ := { pk := freshPk store, fields := fieldValues }
           created := true
           updated_fields := fieldValues.map Prod.fst
           update_info := fieldValues.map (fun p =>
             { field_name := p.1, old_value := none, new_value := p.2 }) },
         store ++ [{ pk := freshPk store, fields := fieldValues }], true)
  | [r] =>
      if (computeUpdates r fieldValues cb).isEmpty then
        Except.ok ({ instance_ := r, created := false, updated_fields := [], update_info := [] },
          store, false)
      else
        Except.ok
          ({ instance_ := applyAll r (computeUpdates r fieldValues cb)
             created := false
             updated_fields := (computeUpdates r fieldValues cb).map (fun u => u.field_name)
             update_info := computeUpdates r fieldValues cb },
           store.map (fun x =>
             if x.pk = r.pk then applyAll r (computeUpdates r fieldValues cb) else x), true)
  | _ => Except.error ("MultipleRecordsError")

/-- Modelled from the spec: the default merge strategy, identity on the
proposed value. -/
def defaultCallback : String → Value → Value → Value :=
  fun _ _ proposed => proposed

/-- Modelled from the spec: Python dict update of the old mapping by the
proposed one; existing keys keep their position and are overwritten,
genuinely new keys are appended in proposal order. -/
def dictUpdate (old new : List (String × String)) : List (String × String) :=
  (old.map (fun p => (p.1, (alookup p.1 new).getD p.2)))
    ++ new.filter (fun p => (alookup p.1 old).isNone)

/-- Modelled from the spec: create_or_update_translation_callback, the
non-destructive translation merge; the supplied language keys are added or
overwritten and all other stored keys are left untouched, the result being
a plain mapping produced by the dict update (test_create_or_update writes
the expected new_value as a plain mapping). -/
def create_or_update_translation_callback : String → Value → Value → Value :=
  fun _ old proposed =>
    match old, proposed with
    | Value.mapping _ m1, Value.mapping _ m2 => Value.mapping false (dictUpdate m1 m2)
    | _, _ => proposed

/-- Modelled from the spec: the designated untranslated sentinel value of
FieldTranslation. -/
def UNTRANSLATED : String := "<UNTRANSLATED>"

/-- Modelled from the spec: FieldTranslation.get_first, the deterministic
fallback lookup over an ordered candidate list of language codes, returning
the untranslated sentinel when no candidate is present. -/
def get_first (m : List (String × String)) : List String → String
  | [] => UNTRANSLATED
  | c :: rest =>
    match alookup c m with
    | some v => v
    | none => get_first m rest

/-- The single captured statement of the worked example of the spec and of
the test fixture: one SELECT on the auth_permission table. -/
def demoQuery : CapturedQuery :=
  { sql := "SELECT * FROM auth_permission", params := [], tables := ["auth_permission"] }

/-- Capture with two byte-identical statements, the scenario of
test_assert_duplicated_queries and test_assert_not_double_tables. -/
def cexQueries : List CapturedQuery :=
  [demoQuery, demoQuery]

/-- Concrete stored record used by the witnesses, mirroring the state of
test_create_or_update after the second call: the translated field holds the
wrapped translation mapping of de-de and en-us. -/
def demoRecord : DbRecord :=
  { pk := 1
    fields := [("translated", Value.mapping true [("de-de", "Hallo"), ("en-us", "Hello")])] }

/-- Lookup predicate of the witnesses: primary key equals one. -/
def demoLookup : DbRecord → Bool :=
  fun x => x.pk == 1

/-! Helper lemmas about substrings, transcripts, counters and lookups. -/

theorem containsSub_self (s : String) : containsSub s s :=
  ⟨"", "", by simp⟩

theorem containsSub_left (a : String) {s pat : String} (h : containsSub s pat) :
    containsSub (a ++ s) pat := by
  obtain ⟨x, y, rfl⟩ := h
  exact ⟨a ++ x, y, by rw [String.append_assoc]⟩

theorem containsSub_right (b : String) {s pat : String} (h : containsSub s pat) :
    containsSub (s ++ b) pat := by
  obtain ⟨x, y, rfl⟩ := h
  exact ⟨x, y ++ b, by rw [String.append_assoc, String.append_assoc]⟩

theorem containsSub_concatAll {l : List String} {x : String} (h : x ∈ l) :
    containsSub (concatAll l) x := by
  induction l with
  | nil => cases h
  | cons s rest ih =>
    rcases List.mem_cons.mp h with h1 | h2
    · subst h1
      exact containsSub_right (concatAll rest) (containsSub_self x)
    · exact containsSub_left s (ih h2)

theorem containsSub_commaSep {l : List String} {x : String} (h : x ∈ l) :
    containsSub (commaSep l) x := by
  induction l with
  | nil => cases h
  | cons s rest ih =>
    cases rest with
    | nil =>
      rcases List.mem_cons.mp h with h1 | h2
      · subst h1; exact containsSub_self x
      · cases h2
    | cons y t =>
      rcases List.mem_cons.mp h with h1 | h2
      · subst h1
        show containsSub (x ++ ", " ++ commaSep (y :: t)) x
        exact containsSub_right (commaSep (y :: t)) (containsSub_right (", ") (containsSub_self x))
      · show containsSub (s ++ ", " ++ commaSep (y :: t)) x
        rw [String.append_assoc]
        exact containsSub_left s (containsSub_left (", ") (ih h2))

theorem transcriptFrom_contains (qs : List CapturedQuery) (k : Nat) (i : Fin qs.length) :
    containsSub (transcriptFrom k qs) (transcriptLine (k + i.val) (qs.get i)) := by
  induction qs generalizing k with
  | nil => exact absurd i.isLt (by simp)
  | cons q rest ih =>
    rcases i with ⟨iv, hi⟩
    cases iv with
    | zero =>
      show containsSub (transcriptLine k q ++ transcriptFrom (k + 1) rest)
        (transcriptLine (k + 0) q)
      rw [Nat.add_zero]
      exact containsSub_right _ (containsSub_self _)
    | succ j =>
      have hj : j < rest.length := Nat.lt_of_succ_lt_succ hi
      have step := ih (k + 1) ⟨j, hj⟩
      show containsSub (transcriptLine k q ++ transcriptFrom (k + 1) rest)
        (transcriptLine (k + (j + 1)) (rest.get ⟨j, hj⟩))
      have harith : k + (j + 1) = (k + 1) + j := by omega
      rw [harith]
      exact containsSub_left _ step

theorem buildErrorMessage_contains_line (msg : String) (qs : List CapturedQuery)
    (i : Fin qs.length) :
    containsSub (buildErrorMessage msg qs) (transcriptLine (i.val + 1) (qs.get i)) := by
  have h := transcriptFrom_contains qs 1 i
  rw [Nat.add_comm 1 i.val] at h
  exact containsSub_left msg (containsSub_left ("\nCaptured queries were:\n") h)

theorem assert_query_count_error_shape {qs : List CapturedQuery} {n : Nat} {m : String}
    (h : assert_query_count qs n = Except.error m) : ∃ msg, m = buildErrorMessage msg qs := by
  rw [assert_query_count] at h
  split at h
  · cases h
  · injection h with h; exact ⟨_, h.symm⟩

theorem assert_table_names_error_shape {qs : List CapturedQuery} {exp : List String} {m : String}
    (h : assert_table_names qs exp = Except.error m) : ∃ msg, m = buildErrorMessage msg qs := by
  rw [assert_table_names] at h
  split at h
  · cases h
  · injection h with h; exact ⟨_, h.symm⟩

theorem assert_table_counts_error_shape {qs : List CapturedQuery} {exp : List (String × Nat)}
    {m : String} (h : assert_table_counts qs exp = Except.error m) :
    ∃ msg, m = buildErrorMessage msg qs := by
  rw [assert_table_counts] at h
  split at h
  · cases h
  · injection h with h; exact ⟨_, h.symm⟩

theorem assert_not_double_tables_error_shape {qs : List CapturedQuery} {m : String}
    (h : assert_not_double_tables qs = Except.error m) : ∃ msg, m = buildErrorMessage msg qs := by
  rw [assert_not_double_tables] at h
  split at h
  · cases h
  · injection h with h; exact ⟨_, h.symm⟩

theorem assert_duplicated_queries_error_shape {qs : List CapturedQuery} {d s : Bool} {m : String}
    (h : assert_duplicated_queries qs d s = Except.error m) :
    ∃ msg, m = buildErrorMessage msg qs := by
  rw [assert_duplicated_queries] at h
  split at h
  · injection h with h; exact ⟨_, h.symm⟩
  · cases h

theorem counterLookup_counterAdd (c : List (String × Nat)) (x t : String) :
    counterLookup (counterAdd c x) t = counterLookup c t + (if x = t then 1 else 0) := by
  induction c with
  | nil => simp [counterAdd, counterLookup]
  | cons p rest ih =>
    obtain ⟨k, n⟩ := p
    rw [counterAdd]
    by_cases hkx : k = x
    · subst hkx
      simp only [if_pos rfl]
      simp only [counterLookup]
      by_cases hkt : k = t
      · simp [hkt]
      · simp [hkt]
    · simp only [if_neg hkx]
      simp only [counterLookup]
      by_cases hkt : k = t
      · have hxt : ¬(x = t) := fun he => hkx (hkt.trans he.symm)
        simp [hkt, hxt]
      · simp [hkt, ih]

theorem counterLookup_foldl (l : List String) (c : List (String × Nat)) (t : String) :
    counterLookup (l.foldl counterAdd c) t = counterLookup c t + occCount t l := by
  induction l generalizing c with
  | nil => simp [occCount]
  | cons x rest ih =>
    show counterLookup (rest.foldl counterAdd (counterAdd c x)) t
      = counterLookup c t + ((if x = t then 1 else 0) + occCount t rest)
    rw [ih, counterLookup_counterAdd]
    omega

theorem counterLookup_mkCounter (l : List String) (t : String) :
    counterLookup (mkCounter l) t = occCount t l := by
  rw [mkCounter, counterLookup_foldl]
  simp [counterLookup]

theorem counterLookup_eq_zero_of_not_mem {c : List (String × Nat)} {t : String}
    (h : t ∉ c.map Prod.fst) : counterLookup c t = 0 := by
  induction c with
  | nil => rfl
  | cons p rest ih =>
    obtain ⟨k, n⟩ := p
    simp only [counterLookup]
    have h1 : ¬(k = t) := fun he => h (by simp [he])
    simp only [if_neg h1]
    exact ih (fun hm => h (by simp [hm]))

theorem counterLookup_of_mem_nodup {c : List (String × Nat)}
    (hnd : (c.map Prod.fst).Nodup) {k : String} {n : Nat} (h : (k, n) ∈ c) :
    counterLookup c k = n := by
  induction c with
  | nil => cases h
  | cons p rest ih =>
    obtain ⟨k1, n1⟩ := p
    rw [List.map_cons, List.nodup_cons] at hnd
    rcases List.mem_cons.mp h with h1 | h2
    · injection h1 with he1 he2
      subst he1; subst he2
      simp [counterLookup]
    · simp only [counterLookup]
      by_cases hpk : k1 = k
      · exfalso
        apply hnd.1
        rw [hpk]
        exact List.mem_map.mpr ⟨(k, n), h2, rfl⟩
      · simp only [if_neg hpk]
        exact ih hnd.2 h2

theorem counterAdd_keys (c : List (String × Nat)) (x : String) :
    (counterAdd c x).map Prod.fst
      = if x ∈ c.map Prod.fst then c.map Prod.fst else c.map Prod.fst ++ [x] := by
  induction c with
  | nil => simp [counterAdd]
  | cons p rest ih =>
    obtain ⟨k, n⟩ := p
    rw [counterAdd]
    by_cases hkx : k = x
    · subst hkx
      simp
    · simp only [if_neg hkx, List.map_cons, ih]
      have hxk : ¬(x = k) := fun he => hkx he.symm
      by_cases hmem : x ∈ rest.map Prod.fst
      · simp [hmem, hxk]
      · simp [hmem, hxk]

theorem counterAdd_keys_nodup {c : List (String × Nat)} (h : (c.map Prod.fst).Nodup)
    (x : String) : ((counterAdd c x).map Prod.fst).Nodup := by
  rw [counterAdd_keys]
  split_ifs with hmem
  · exact h
  · simp [List.nodup_append, h, hmem]

theorem mkCounter_keys_nodup (l : List String) : ((mkCounter l).map Prod.fst).Nodup := by
  rw [mkCounter]
  have gen : ∀ c : List (String × Nat), (c.map Prod.fst).Nodup →
      ((l.foldl counterAdd c).map Prod.fst).Nodup := by
    induction l with
    | nil => intro c hc; exact hc
    | cons x rest ih =>
      intro c hc
      exact ih (counterAdd c x) (counterAdd_keys_nodup hc x)
  exact gen [] (by simp)

theorem counterEq_iff {a b : List (String × Nat)}
    (ha : (a.map Prod.fst).Nodup) (hb : (b.map Prod.fst).Nodup) :
    counterEq a b = true ↔ ∀ t, counterLookup a t = counterLookup b t := by
  rw [counterEq, Bool.and_eq_true, List.all_eq_true, List.all_eq_true]
  constructor
  · rintro ⟨h1, h2⟩ t
    by_cases hta : t ∈ a.map Prod.fst
    · obtain ⟨p, hp, hpt⟩ := List.mem_map.mp hta
      have hd := of_decide_eq_true (h1 p hp)
      have hav : counterLookup a p.1 = p.2 :=
        counterLookup_of_mem_nodup ha (by rw [← Prod.mk.eta (p := p)] at hp; exact hp)
      rw [← hpt, hav, hd]
    · have ha0 : counterLookup a t = 0 := counterLookup_eq_zero_of_not_mem hta
      by_cases htb : t ∈ b.map Prod.fst
      · obtain ⟨p, hp, hpt⟩ := List.mem_map.mp htb
        have hd := of_decide_eq_true (h2 p hp)
        have hbv : counterLookup b p.1 = p.2 :=
          counterLookup_of_mem_nodup hb (by rw [← Prod.mk.eta (p := p)] at hp; exact hp)
        rw [ha0, ← hpt, hbv, ← hd, hpt, ha0]
      · rw [ha0, counterLookup_eq_zero_of_not_mem htb]
  · intro h
    refine ⟨fun p hp => decide_eq_true ?_, fun p hp => decide_eq_true ?_⟩
    · rw [← h p.1]
      exact counterLookup_of_mem_nodup ha (by rw [← Prod.mk.eta (p := p)] at hp; exact hp)
    · rw [h p.1]
      exact counterLookup_of_mem_nodup hb (by rw [← Prod.mk.eta (p := p)] at hp; exact hp)

theorem alookup_eq_none_of_not_mem {β : Type} {m : List (String × β)} {k : String}
    (h : k ∉ m.map Prod.fst) : alookup k m = none := by
  induction m with
  | nil => rfl
  | cons p rest ih =>
    rw [alookup]
    have h1 : ¬(p.1 = k) := fun he => h (by simp [he])
    simp only [if_neg h1]
    exact ih (fun hm => h (by simp [hm]))

theorem contentEq_iff (m1 m2 : List (String × String)) :
    contentEq m1 m2 = true ↔ ∀ k, alookup k m1 = alookup k m2 := by
  rw [contentEq, List.all_eq_true]
  constructor
  · intro h k
    by_cases h1 : k ∈ m1.map Prod.fst
    · have := h k (List.mem_append.mpr (Or.inl h1))
      exact eq_of_beq this
    · by_cases h2 : k ∈ m2.map Prod.fst
      · have := h k (List.mem_append.mpr (Or.inr h2))
        exact eq_of_beq this
      · rw [alookup_eq_none_of_not_mem h1, alookup_eq_none_of_not_mem h2]
  · intro h k _
    exact beq_iff_eq.mpr (h k)

theorem alookup_append {β : Type} (k : String) (l1 l2 : List (String × β)) :
    alookup k (l1 ++ l2) =
      match alookup k l1 with
      | some v => some v
      | none => alookup k l2 := by
  induction l1 with
  | nil => simp [alookup]
  | cons p rest ih =>
    rw [List.cons_append, alookup, alookup]
    by_cases hp : p.1 = k
    · simp [hp]
    · simp only [if_neg hp]
      exact ih

theorem alookup_map_override (old new : List (String × String)) (k : String) :
    alookup k (old.map (fun p => (p.1, (alookup p.1 new).getD p.2)))
      = (alookup k old).map (fun v => (alookup k new).getD v) := by
  induction old with
  | nil => rfl
  | cons p rest ih =>
    rw [List.map_cons, alookup, alookup]
    by_cases hp : p.1 = k
    · subst hp
      simp
    · simp only [if_neg hp]
      exact ih

theorem alookup_filter_isNone (old new : List (String × String)) (k : String)
    (h : alookup k old = none) :
    alookup k (new.filter (fun p => (alookup p.1 old).isNone)) = alookup k new := by
  induction new with
  | nil => rfl
  | cons p rest ih =>
    by_cases hp : p.1 = k
    · have hpo : alookup p.1 old = none := by rw [hp]; exact h
      rw [List.filter_cons]
      simp only [hpo, Option.isNone_none, if_pos]
      rw [alookup, alookup]
      simp [hp, ih]
    · rw [List.filter_cons]
      by_cases hkeep : (alookup p.1 old).isNone
      · simp only [hkeep, if_pos]
        rw [alookup, alookup]
        simp only [if_neg hp]
        exact ih
      · simp only [hkeep]
        rw [alookup]
        simp only [if_neg hp]
        simp only [Bool.false_eq_true, if_neg]
        exact ih

theorem dictUpdate_alookup (old new : List (String × String)) (k : String) :
    alookup k (dictUpdate old new) =
      match alookup k new with
      | some v => some v
      | none => alookup k old := by
  rw [dictUpdate, alookup_append, alookup_map_override]
  cases hko : alookup k old with
  | some v =>
    simp only [Option.map_some']
    cases hkn : alookup k new with
    | some w => simp
    | none => simp
  | none =>
    simp only [Option.map_none']
    rw [alookup_filter_isNone old new k hko]
    cases hkn : alookup k new with
    | some w => simp
    | none => simp [hko]

theorem alookup_map_set (l : List (String × Value)) (f : String) (v : Value) :
    alookup f (l.map (fun p => if p.1 = f then (p.1, v) else p))
      = (alookup f l).map (fun _ => v) := by
  induction l with
  | nil => rfl
  | cons p rest ih =>
    rw [List.map_cons, alookup]
    by_cases hp : p.1 = f
    · simp only [if_pos hp]
      rw [alookup]
      simp [hp]
    · simp only [if_neg hp]
      rw [alookup]
      simp only [if_neg hp]
      exact ih

theorem extraCount_eq_zero_iff {α : Type} [DecidableEq α] (l : List α) :
    extraCount l = 0 ↔ l.Nodup := by
  induction l with
  | nil => simp [extraCount]
  | cons x rest ih =>
    rw [extraCount, List.nodup_cons]
    by_cases hx : x ∈ rest
    · simp [hx]
    · simp [hx, ih]

/-! Theorems settling the claims. -/

/-- C2: after recording exactly one statement SELECT * FROM auth_permission,
assert_query_count 1 passes, and assert_query_count 2 raises with a message
containing the text 1 queries executed, 2 expected. and a transcript line
starting with 1. SELECT. -/
theorem claim2_query_count_example :
    assert_query_count [demoQuery] 1 = Except.ok () ∧
    ∃ m, assert_query_count [demoQuery] 2 = Except.error m ∧
      containsSub m ("1 queries executed, 2 expected.") ∧
      containsSub m ("1. SELECT") := by
  refine ⟨rfl,
    "1 queries executed, 2 expected.\nCaptured queries were:\n1. SELECT * FROM auth_permission\n",
    rfl,
    ⟨"", "\nCaptured queries were:\n1. SELECT * FROM auth_permission\n", rfl⟩,
    ⟨"1 queries executed, 2 expected.\nCaptured queries were:\n",
      " * FROM auth_permission\n", rfl⟩⟩

/-- C8: every assertion operation of the recorder (assert_query_count,
assert_table_names, assert_table_counts, assert_not_double_tables,
assert_duplicated_queries), whenever it raises, includes in its failure
message a transcript line for every captured statement, written as the
index, a dot and the SQL text, with indices starting at 1 in capture
order. -/
theorem claim8_transcript (qs : List CapturedQuery) (m : String)
    (h : (∃ n, assert_query_count qs n = Except.error m) ∨
         (∃ exp, assert_table_names qs exp = Except.error m) ∨
         (∃ exp, assert_table_counts qs exp = Except.error m) ∨
         assert_not_double_tables qs = Except.error m ∨
         (∃ d s, assert_duplicated_queries qs d s = Except.error m)) :
    ∀ i : Fin qs.length, containsSub m (transcriptLine (i.val + 1) (qs.get i)) := by
  have hshape : ∃ msg, m = buildErrorMessage msg qs := by
    rcases h with ⟨n, h⟩ | ⟨exp, h⟩ | ⟨exp, h⟩ | h | ⟨d, s, h⟩
    · exact assert_query_count_error_shape h
    · exact assert_table_names_error_shape h
    · exact assert_table_counts_error_shape h
    · exact assert_not_double_tables_error_shape h
    · exact assert_duplicated_queries_error_shape h
  obtain ⟨msg, rfl⟩ := hshape
  exact fun i => buildErrorMessage_contains_line msg qs i

/-- Witness for C8 at a concrete input: the failure of assert_query_count
on the one-statement capture contains the transcript line of the
statement. -/
theorem claim8_witness :
    containsSub (buildErrorMessage ("1 queries executed, 2 expected.") [demoQuery])
      (transcriptLine (0 + 1) ([demoQuery].get ⟨0, Nat.zero_lt_one⟩)) :=
  claim8_transcript [demoQuery]
    (buildErrorMessage ("1 queries executed, 2 expected.") [demoQuery])
    (Or.inl ⟨2, rfl⟩) ⟨0, Nat.zero_lt_one⟩

/-- C3: for every captured sequence and expected counter with distinct keys,
assert_table_counts passes exactly when the per-table occurrence multiset of
the captured statements equals the expected counter, including keys absent
from one side; on mismatch it raises and the message reports every expected
entry as a minus line and every actual entry as a plus line. -/
theorem claim3_table_counts (qs : List CapturedQuery) (expected : List (String × Nat))
    (hnd : (expected.map Prod.fst).Nodup) :
    (assert_table_counts qs expected = Except.ok () ↔
      ∀ t, counterLookup expected t = occCount t (tableOccurrences qs)) ∧
    (∀ m, assert_table_counts qs expected = Except.error m →
      (∀ p ∈ expected, containsSub m ("-" ++ p.1 ++ ": " ++ Nat.repr p.2 ++ "\n")) ∧
      (∀ p ∈ mkCounter (tableOccurrences qs),
        containsSub m ("+" ++ p.1 ++ ": " ++ Nat.repr p.2 ++ "\n"))) := by
  have hkey : counterEq expected (mkCounter (tableOccurrences qs)) = true ↔
      ∀ t, counterLookup expected t = occCount t (tableOccurrences qs) := by
    rw [counterEq_iff hnd (mkCounter_keys_nodup _)]
    constructor
    · intro h t; rw [h t, counterLookup_mkCounter]
    · intro h t; rw [h t, counterLookup_mkCounter]
  constructor
  · rw [assert_table_counts]
    split_ifs with hc
    · exact iff_of_true rfl (hkey.mp hc)
    · exact iff_of_false (by simp) (fun hp => hc (hkey.mpr hp))
  · intro m hm
    rw [assert_table_counts] at hm
    by_cases hc : counterEq expected (mkCounter (tableOccurrences qs)) = true
    · rw [if_pos hc] at hm; cases hm
    · rw [if_neg hc] at hm
      injection hm with hm
      subst hm
      constructor
      · intro p hp
        have hline : containsSub (counterLines ("-") expected)
            ("-" ++ p.1 ++ ": " ++ Nat.repr p.2 ++ "\n") := by
          rw [counterLines]
          exact containsSub_concatAll (List.mem_map.mpr ⟨p, hp, rfl⟩)
        rw [buildErrorMessage]
        exact containsSub_right _
          (containsSub_right _ (containsSub_left ("Table count error:\n") hline))
      · intro p hp
        have hline : containsSub (counterLines ("+") (mkCounter (tableOccurrences qs)))
            ("+" ++ p.1 ++ ": " ++ Nat.repr p.2 ++ "\n") := by
          rw [counterLines]
          exact containsSub_concatAll (List.mem_map.mpr ⟨p, hp, rfl⟩)
        rw [buildErrorMessage]
        exact containsSub_right _
          (containsSub_left ("Table count error:\n" ++ counterLines ("-") expected) hline)

/-- Witness for C3 at a concrete input: the one-statement capture passes
against the counter that maps auth_permission to one occurrence. -/
theorem claim3_witness :
    assert_table_counts [demoQuery] [("auth_permission", 1)] = Except.ok () := by
  refine (claim3_table_counts [demoQuery] [("auth_permission", 1)] (by simp)).1.mpr ?_
  intro t
  simp [counterLookup, occCount, tableOccurrences, demoQuery]

/-- C7: for every captured sequence, assert_not_double_tables passes exactly
when no table name is referenced by more than one distinct captured
statement, irrespective of whether those statements are duplicates; on
violation the message lists every offending table name. -/
theorem claim7_not_double_tables (qs : List CapturedQuery) :
    (assert_not_double_tables qs = Except.ok () ↔
      ∀ t, statementsReferencing qs t ≤ 1) ∧
    (∀ m, assert_not_double_tables qs = Except.error m →
      ∀ t, 2 ≤ statementsReferencing qs t → containsSub m ("\x27" ++ t ++ "\x27")) := by
  have hmem : ∀ t, 2 ≤ statementsReferencing qs t → t ∈ (tableOccurrences qs).dedup := by
    intro t h2
    rw [List.mem_dedup]
    rw [statementsReferencing] at h2
    have hne : qs.filter (fun q => decide (t ∈ q.tables)) ≠ [] := by
      intro he
      rw [he] at h2
      simp at h2
    obtain ⟨q, hq⟩ := List.exists_mem_of_ne_nil _ hne
    obtain ⟨hqmem, hqt⟩ := List.mem_filter.mp hq
    rw [tableOccurrences]
    exact List.mem_flatten.mpr ⟨q.tables, List.mem_map.mpr ⟨q, hqmem, rfl⟩,
      of_decide_eq_true hqt⟩
  have hkey : doubledTables qs = [] ↔ ∀ t, statementsReferencing qs t ≤ 1 := by
    rw [doubledTables, List.filter_eq_nil_iff]
    constructor
    · intro h t
      by_contra hc
      have h2 : 2 ≤ statementsReferencing qs t := by omega
      exact h t (hmem t h2) (by simpa using h2)
    · intro h t _ hpred
      have h2 := of_decide_eq_true hpred
      have := h t
      omega
  constructor
  · rw [assert_not_double_tables]
    split_ifs with hc
    · exact iff_of_true rfl (hkey.mp hc)
    · exact iff_of_false (by simp) (fun hp => hc (hkey.mpr hp))
  · intro m hm t h2
    rw [assert_not_double_tables] at hm
    by_cases hc : doubledTables qs = []
    · rw [if_pos hc] at hm; cases hm
    · rw [if_neg hc] at hm
      injection hm with hm
      subst hm
      have htd : t ∈ doubledTables qs := by
        rw [doubledTables, List.mem_filter]
        exact ⟨hmem t h2, decide_eq_true h2⟩
      have hq : containsSub (pySet (doubledTables qs)) ("\x27" ++ t ++ "\x27") := by
        rw [pySet]
        exact containsSub_right ("\x7d")
          (containsSub_left ("\x7b") (containsSub_commaSep (List.mem_map.mpr ⟨t, htd, rfl⟩)))
      rw [buildErrorMessage]
      exact containsSub_right _ (containsSub_left ("These tables was double used:\n") hq)

/-- Witness for C7 at a concrete input: the one-statement capture passes. -/
theorem claim7_witness :
    assert_not_double_tables [demoQuery] = Except.ok () := by
  refine (claim7_not_double_tables [demoQuery]).1.mpr ?_
  intro t
  have h := List.length_filter_le (fun q => decide (t ∈ q.tables)) [demoQuery]
  simpa [statementsReferencing] using h

/-- C1 counterexample: in the capture of two byte-identical statements there
is no group of statements with identical SQL text but differing parameters,
yet assert_duplicated_queries with similar true and duplicated false does
not pass; this is exactly the behaviour pinned by the similar-only block of
test_assert_duplicated_queries, and it refutes the claim that identical
duplicates never make a similar-only assertion fail. -/
theorem claim1_counterexample :
    hasSimilarNotIdentical cexQueries = false ∧
    (assert_duplicated_queries cexQueries false true).isOk = false := by
  constructor
  · decide
  · decide

/-- C1 amended: assert_duplicated_queries with similar true passes exactly
when no SQL text occurs in more than one captured statement; statements are
grouped by statement text alone, so byte-identical statements count as
similar as well. -/
theorem claim1_similar_by_sql_only (qs : List CapturedQuery) (duplicated : Bool) :
    assert_duplicated_queries qs duplicated true = Except.ok () ↔
      (qs.map (fun q => q.sql)).Nodup := by
  have hmono : (qs.map (fun q => q.sql)).Nodup → duplicatedCount qs = 0 := by
    intro h
    rw [duplicatedCount, extraCount_eq_zero_iff]
    have hmm : ((qs.map (fun q => (q.sql, q.params))).map Prod.fst)
        = qs.map (fun q => q.sql) := by
      rw [List.map_map]
      rfl
    exact List.Nodup.of_map Prod.fst (hmm ▸ h)
  rw [assert_duplicated_queries]
  split_ifs with hc
  · refine iff_of_false (by simp) ?_
    intro hnd
    have hs : similarCount qs = 0 := by
      rw [similarCount, extraCount_eq_zero_iff]
      exact hnd
    have hd : duplicatedCount qs = 0 := hmono hnd
    rw [hs, hd] at hc
    simp at hc
  · refine iff_of_true rfl ?_
    have hs : similarCount qs = 0 := by
      by_contra hne
      exact hc (by simp [hne])
    rw [similarCount, extraCount_eq_zero_iff] at hs
    exact hs

/-- Witness for the amended C1 at a concrete input: a single-statement
capture passes the similar-only assertion. -/
theorem claim1_witness :
    assert_duplicated_queries [demoQuery] false true = Except.ok () :=
  (claim1_similar_by_sql_only [demoQuery] false).mpr (by simp)

/-- C9: for every translation mapping and ordered candidate list of language
codes, get_first returns the value stored under the first candidate present
in the mapping, and the untranslated sentinel when no candidate is present,
in particular on an empty mapping. -/
theorem claim9_get_first (m : List (String × String)) (codes : List String) :
    ((∀ c ∈ codes, alookup c m = none) → get_first m codes = UNTRANSLATED) ∧
    (∀ (i : Fin codes.length) (v : String),
      alookup (codes.get i) m = some v →
      (∀ j : Fin codes.length, (j : Nat) < (i : Nat) → alookup (codes.get j) m = none) →
      get_first m codes = v) := by
  induction codes with
  | nil =>
    exact ⟨fun _ => rfl, fun i => absurd i.isLt (by simp)⟩
  | cons c rest ih =>
    constructor
    · intro h
      have hc : alookup c m = none := h c (List.mem_cons_self c rest)
      rw [get_first, hc]
      exact ih.1 (fun x hx => h x (List.mem_cons_of_mem _ hx))
    · rintro ⟨iv, hi⟩ v hv hprev
      cases iv with
      | zero =>
        have hc : alookup c m = some v := hv
        rw [get_first, hc]
      | succ j =>
        have hc : alookup c m = none := hprev ⟨0, by simp⟩ (by simp)
        rw [get_first, hc]
        refine ih.2 ⟨j, by simpa using hi⟩ v hv ?_
        rintro ⟨j2, hj2⟩ hlt
        exact hprev ⟨j2 + 1, by simpa using Nat.succ_lt_succ hj2⟩
          (by simpa using Nat.succ_lt_succ hlt)

/-- Witness for C9 at the concrete input of test_field_translation: with
only a de-de entry stored, the lookup over foo, bar, en-gb, de-de returns
the de-de value, and the empty mapping yields the sentinel. -/
theorem claim9_witness :
    get_first [("de-de", "Hallo")] ["foo", "bar", "en-gb", "de-de"] = "Hallo" := by
  refine (claim9_get_first [("de-de", "Hallo")] ["foo", "bar", "en-gb", "de-de"]).2
    ⟨3, by decide⟩ "Hallo" (by decide) ?_
  intro j hj
  fin_cases j <;> simp_all <;> rfl

/-- C5: for every reconcile call whose lookup predicate matches zero
existing records, the result has created true, the new record holds all
supplied field values, the changed-field list equals the full list of
supplied field names, and there is one FieldUpdate per field whose old
value is the absent sentinel; the new record is persisted. -/
theorem claim5_create_path (store : List DbRecord) (lookup : DbRecord → Bool)
    (fieldValues : List (String × Value)) (cb : String → Value → Value → Value)
    (h : store.filter lookup = []) :
    create_or_update2 store lookup fieldValues cb =
      Except.ok
        ({ instance_ := { pk := freshPk store, fields := fieldValues }
           created := true
           updated_fields := fieldValues.map Prod.fst
           update_info := fieldValues.map (fun p =>
             { field_name := p.1, old_value := none, new_value := p.2 }) },
         store ++ [{ pk := freshPk store, fields := fieldValues }], true) := by
  unfold create_or_update2
  rw [h]

/-- Witness for C5 at a concrete input: creating against the empty store. -/
theorem claim5_witness :
    create_or_update2 [] demoLookup
      [("translated", Value.mapping false [("de-de", "Hallo")])] defaultCallback =
      Except.ok
        ({ instance_ := { pk := 1, fields := [("translated", Value.mapping false [("de-de", "Hallo")])] }
           created := true
           updated_fields := ["translated"]
           update_info := [{ field_name := "translated"
                             old_value := none
                             new_value := Value.mapping false [("de-de", "Hallo")] }] },
         [{ pk := 1, fields := [("translated", Value.mapping false [("de-de", "Hallo")])] }],
         true) :=
  claim5_create_path [] demoLookup
    [("translated", Value.mapping false [("de-de", "Hallo")])] defaultCallback rfl

/-- C6: for every reconcile call on an existing record where every proposed
field value, after merge, equals the currently stored value under the field
equality semantics, the result has created false and an empty changed-field
list, no persistence write is issued, and the store is left unchanged. -/
theorem claim6_no_change_no_write (store : List DbRecord) (lookup : DbRecord → Bool)
    (fieldValues : List (String × Value)) (cb : String → Value → Value → Value)
    (r : DbRecord) (hm : store.filter lookup = [r])
    (hall : ∀ p ∈ fieldValues, valueEq (cb p.1 (getField r p.1) p.2) (getField r p.1) = true) :
    create_or_update2 store lookup fieldValues cb =
      Except.ok ({ instance_ := r, created := false, updated_fields := [], update_info := [] },
        store, false) := by
  have hups : computeUpdates r fieldValues cb = [] := by
    rw [computeUpdates, List.filterMap_eq_nil_iff]
    intro p hp
    simp [hall p hp]
  unfold create_or_update2
  rw [hm]
  simp [hups]

/-- Witness for C6 at a concrete input: proposing the stored translation
contents again (as a plain mapping) leaves the record untouched and issues
no write. -/
theorem claim6_witness :
    create_or_update2 [demoRecord] demoLookup
      [("translated", Value.mapping false [("de-de", "Hallo"), ("en-us", "Hello")])]
      defaultCallback =
      Except.ok
        ({ instance_ := demoRecord, created := false, updated_fields := [], update_info := [] },
         [demoRecord], false) :=
  claim6_no_change_no_write [demoRecord] demoLookup
    [("translated", Value.mapping false [("de-de", "Hallo"), ("en-us", "Hello")])]
    defaultCallback demoRecord rfl (by decide)

theorem create_or_update2_update_case (store : List DbRecord) (lookup : DbRecord → Bool)
    (fieldValues : List (String × Value)) (cb : String → Value → Value → Value)
    (r : DbRecord) (hm : store.filter lookup = [r])
    (hne : computeUpdates r fieldValues cb ≠ []) :
    create_or_update2 store lookup fieldValues cb =
      Except.ok
        ({ instance_ := applyAll r (computeUpdates r fieldValues cb)
           created := false
           updated_fields := (computeUpdates r fieldValues cb).map (fun u => u.field_name)
           update_info := computeUpdates r fieldValues cb },
         store.map (fun x =>
           if x.pk = r.pk then applyAll r (computeUpdates r fieldValues cb) else x),
         true) := by
  have hie : (computeUpdates r fieldValues cb).isEmpty = false := by
    rcases h : computeUpdates r fieldValues cb with _ | ⟨u, us⟩
    · exact absurd h hne
    · rfl
  unfold create_or_update2
  rw [hm]
  simp [hie]

/-- C4: for any reconcile call on an existing record with the translation
merge callback, every key present only in the old stored mapping survives
in the stored new value, keys supplied in the proposed mapping are added or
overwritten, and every resulting FieldUpdate has the previously stored
wrapped value as old value and the merge result as new value. -/
theorem claim4_translation_merge (store : List DbRecord) (lookup : DbRecord → Bool)
    (f : String) (w : Bool) (old prop : List (String × String)) (r : DbRecord)
    (hm : store.filter lookup = [r])
    (hf : alookup f r.fields = some (Value.mapping w old)) :
    ∃ res store2 wrote,
      create_or_update2 store lookup [(f, Value.mapping false prop)]
        create_or_update_translation_callback = Except.ok (res, store2, wrote) ∧
      res.created = false ∧
      (∃ w2 m2, alookup f res.instance_.fields = some (Value.mapping w2 m2) ∧
        (∀ k, alookup k prop = none → alookup k m2 = alookup k old) ∧
        (∀ k v, alookup k prop = some v → alookup k m2 = some v)) ∧
      (∀ u ∈ res.update_info,
        u = { field_name := f
              old_value := some (Value.mapping w old)
              new_value := Value.mapping false (dictUpdate old prop) }) := by
  have hget : getField r f = Value.mapping w old := by
    rw [getField, hf]
    rfl
  have hsurv : ∀ k, alookup k prop = none → alookup k (dictUpdate old prop) = alookup k old := by
    intro k hk
    rw [dictUpdate_alookup, hk]
  have hover : ∀ k v, alookup k prop = some v → alookup k (dictUpdate old prop) = some v := by
    intro k v hk
    rw [dictUpdate_alookup, hk]
  by_cases hch : valueEq (Value.mapping false (dictUpdate old prop)) (Value.mapping w old) = true
  · have hups : computeUpdates r [(f, Value.mapping false prop)]
        create_or_update_translation_callback = [] := by
      rw [computeUpdates]
      simp [hget, hch, create_or_update_translation_callback]
    refine ⟨{ instance_ := r, created := false, updated_fields := [], update_info := [] },
      store, false, ?_, rfl, ⟨w, old, hf, ?_, ?_⟩, ?_⟩
    · unfold create_or_update2
      rw [hm]
      simp [hups]
    · intro k _
      rfl
    · intro k v hk
      have hc2 : contentEq (dictUpdate old prop) old = true := hch
      have hck := (contentEq_iff _ _).mp hc2 k
      rw [← hck]
      exact hover k v hk
    · intro u hu
      cases hu
  · have hups : computeUpdates r [(f, Value.mapping false prop)]
        create_or_update_translation_callback =
        [{ field_name := f
           old_value := some (Value.mapping w old)
           new_value := Value.mapping false (dictUpdate old prop) }] := by
      rw [computeUpdates]
      simp [hget, hch, create_or_update_translation_callback]
    have hne : computeUpdates r [(f, Value.mapping false prop)]
        create_or_update_translation_callback ≠ [] := by
      rw [hups]
      simp
    have hrun := create_or_update2_update_case store lookup [(f, Value.mapping false prop)]
      create_or_update_translation_callback r hm hne
    rw [hups] at hrun
    have hset : alookup f (setField r f (Value.mapping false (dictUpdate old prop))).fields
        = some (Value.mapping false (dictUpdate old prop)) := by
      show alookup f (r.fields.map (fun p =>
        if p.1 = f then (p.1, Value.mapping false (dictUpdate old prop)) else p)) = _
      rw [alookup_map_set, hf]
      rfl
    refine ⟨_, _, _, hrun, rfl, ⟨false, dictUpdate old prop, ?_, hsurv, hover⟩, ?_⟩
    · exact hset
    · intro u hu
      simpa using hu

/-- Witness for C4 at the concrete input of test_create_or_update: the
stored wrapped mapping of de-de and en-us merged with the proposed de-de
and es entries. -/
theorem claim4_witness :
    ∃ res store2 wrote,
      create_or_update2 [demoRecord] demoLookup
        [("translated", Value.mapping false [("de-de", "Hallo !"), ("es", "Hola")])]
        create_or_update_translation_callback = Except.ok (res, store2, wrote) ∧
      res.created = false ∧
      (∃ w2 m2, alookup ("translated") res.instance_.fields = some (Value.mapping w2 m2) ∧
        (∀ k, alookup k [("de-de", "Hallo !"), ("es", "Hola")] = none →
          alookup k m2 = alookup k [("de-de", "Hallo"), ("en-us", "Hello")]) ∧
        (∀ k v, alookup k [("de-de", "Hallo !"), ("es", "Hola")] = some v →
          alookup k m2 = some v)) ∧
      (∀ u ∈ res.update_info,
        u = { field_name := "translated"
              old_value := some (Value.mapping true [("de-de", "Hallo"), ("en-us", "Hello")])
              new_value := Value.mapping false
                (dictUpdate [("de-de", "Hallo"), ("en-us", "Hello")]
                  [("de-de", "Hallo !"), ("es", "Hola")]) }) :=
  claim4_translation_merge [demoRecord] demoLookup "translated" true
    [("de-de", "Hallo"), ("en-us", "Hello")] [("de-de", "Hallo !"), ("es", "Hola")]
    demoRecord rfl rfl

/-- C10: updating the stored translation field through the translation merge
callback produces a FieldUpdate whose old value is the stored wrapped
FieldTranslation while the new value is the plain mapping produced by the
merge; the wrapped and the plain mapping with the same contents are
different values yet compare equal under the structural content equality,
so update entries must be compared by contents, not by wrapper type. -/
theorem claim10_wrapper_vs_plain :
    create_or_update2 [demoRecord] demoLookup
      [("translated", Value.mapping false [("de-de", "Hallo !"), ("es", "Hola")])]
      create_or_update_translation_callback =
      Except.ok
        ({ instance_ :=
            { pk := 1
              fields := [("translated", Value.mapping false
                [("de-de", "Hallo !"), ("en-us", "Hello"), ("es", "Hola")])] }
           created := false
           updated_fields := ["translated"]
           update_info := [{ field_name := "translated"
                             old_value := some (Value.mapping true
                               [("de-de", "Hallo"), ("en-us", "Hello")])
                             new_value := Value.mapping false
                               [("de-de", "Hallo !"), ("en-us", "Hello"), ("es", "Hola")] }] },
         [{ pk := 1
            fields := [("translated", Value.mapping false
              [("de-de", "Hallo !"), ("en-us", "Hello"), ("es", "Hola")])] }],
         true) ∧
    valueEq (Value.mapping true [("de-de", "Hallo"), ("en-us", "Hello")])
      (Value.mapping false [("de-de", "Hallo"), ("en-us", "Hello")]) = true ∧
    valueEq (Value.mapping false [("de-de", "Hallo !"), ("en-us", "Hello"), ("es", "Hola")])
      (Value.mapping true [("de-de", "Hallo !"), ("en-us", "Hello"), ("es", "Hola")]) = true ∧
    Value.mapping true [("de-de", "Hallo"), ("en-us", "Hello")]
      ≠ Value.mapping false [("de-de", "Hallo"), ("en-us", "Hello")] :=
  ⟨rfl, by decide, by decide, by decide⟩

end BxUtils
